import Mathlib

/-!
# Task API: a shallow embedding of the CRUD service and its specification

The development follows the source files of the Go program:

* `models/task.go`            : `Task`, `CreateTaskRequest`
* `repository/task_repo.go`   : `PostgresTaskRepository` over a model of the `tasks` table
* `services/task_service.go`  : `TaskService` over any `TaskRepositoryInterface`
* `handlers/task_handler.go`  : `TaskHandler` over any `TaskServiceInterface`

Conventions of the embedding.

* A Go `string` is a Lean `String`; Go's builtin `len` on a string is its number of
  UTF-8 bytes (`String.utf8ByteSize`), not its number of characters (`String.length`).
* A Go `error` is represented by its text (`err.Error()`), the only thing the program
  ever inspects; `nil` is the absence of an error.
* Interface values with hidden state (a repository, a service) are records of
  state-passing functions over an arbitrary state type `σ`.
* `time.Time` values are instants on an integer time line; clocks are explicit inputs.
-/

namespace TaskApi

/-! ## models/task.go -/

/-- Instants of `time.Time` as points on an integer time line; `0` is the zero value. -/
abbrev Time := Int

/-- Text of a Go `error`, as returned by `err.Error()`. -/
abbrev Error := String

/-- Go's builtin `len` on a string: the number of bytes of its UTF-8 encoding. -/
def len (s : String) : Nat := s.utf8ByteSize

/-- Task of `models/task.go`. -/
structure Task where
  ID : Int
  Title : String
  Description : String
  Status : String
  Priority : String
  CreatedAt : Time
  UpdatedAt : Time
deriving DecidableEq, Repr

/-- CreateTaskRequest of `models/task.go`, used for both create and update. -/
structure CreateTaskRequest where
  Title : String
  Description : String
  Status : String
  Priority : String
deriving DecidableEq, Repr

/-! ## repository/task_repository_interface.go -/

/-- TaskRepositoryInterface: the five CRUD methods, each threading the hidden state of the
implementation. `GetByID` may answer `ok none` (Go: `nil, nil`) when there is no such row, as
the interface documents; the other methods return a task whenever they return no error. -/
structure TaskRepositoryInterface (σ : Type) where
  Create : Task → σ → Except Error Task × σ
  GetAll : σ → Except Error (List Task) × σ
  GetByID : Int → σ → Except Error (Option Task) × σ
  Update : Task → σ → Except Error Task × σ
  Delete : Int → σ → Option Error × σ

/-! ## services/task_service.go -/

/-- TaskService holds the repository it works on. -/
structure TaskService (σ : Type) where
  Repo : TaskRepositoryInterface σ

namespace TaskService

variable {σ : Type}

/-- CreateTask: fills in the defaults and delegates to the repository. -/
def CreateTask (s : TaskService σ) (req : CreateTaskRequest) (st : σ) : Except Error Task × σ :=
  let req := if req.Status = "" then { req with Status := "todo" } else req
  let req := if req.Priority = "" then { req with Priority := "medium" } else req
  let task : Task :=
    { ID := 0, Title := req.Title, Description := req.Description, Status := req.Status,
      Priority := req.Priority, CreatedAt := 0, UpdatedAt := 0 }
  s.Repo.Create task st

/-- GetAllTasks: pass-through. -/
def GetAllTasks (s : TaskService σ) (st : σ) : Except Error (List Task) × σ :=
  s.Repo.GetAll st

/-- GetTaskByID: repository errors are passed on, a missing row becomes "not found". -/
def GetTaskByID (s : TaskService σ) (id : Int) (st : σ) : Except Error Task × σ :=
  match s.Repo.GetByID id st with
  | (.error err, st1) => (.error err, st1)
  | (.ok none, st1) => (.error "not found", st1)
  | (.ok (some task), st1) => (.ok task, st1)

/-- UpdateTask: loads the task, overwrites the fields whose request value is non-empty,
stamps `UpdatedAt` with the clock reading `now` and hands the task to the repository. -/
def UpdateTask (s : TaskService σ) (now : Time) (id : Int) (req : CreateTaskRequest) (st : σ) :
    Except Error Task × σ :=
  match s.Repo.GetByID id st with
  | (.error err, st1) => (.error err, st1)
  | (.ok none, st1) => (.error "not found", st1)
  | (.ok (some task), st1) =>
    let task := if req.Title ≠ "" then { task with Title := req.Title } else task
    let task := if req.Description ≠ "" then { task with Description := req.Description } else task
    let task := if req.Status ≠ "" then { task with Status := req.Status } else task
    let task := if req.Priority ≠ "" then { task with Priority := req.Priority } else task
    let task := { task with UpdatedAt := now }
    match s.Repo.Update task st1 with
    | (.error err, st2) => (.error err, st2)
    | (.ok updatedTask, st2) => (.ok updatedTask, st2)

/-- DeleteTask: loads the task first, then deletes by id. -/
def DeleteTask (s : TaskService σ) (id : Int) (st : σ) : Option Error × σ :=
  match s.Repo.GetByID id st with
  | (.error err, st1) => (some err, st1)
  | (.ok none, st1) => (some "not found", st1)
  | (.ok (some _), st1) => s.Repo.Delete id st1

end TaskService

/-! ## repository/task_repo.go -/

/-- Modelled from the spec: the `tasks` table, whose schema is not part of the source. The spec
gives `tasks(id serial primary key, title text, description text, status text, priority text,
created_at timestamp, updated_at timestamp)`: `rows` are the rows in table order and `seq` is
the last value handed out by the serial sequence behind `id`. -/
structure DB where
  rows : List Task
  seq : Int
deriving DecidableEq, Repr

/-- Text of the error of an insert whose `id` is already taken (primary key). -/
def errDuplicateKey : Error := "pq: duplicate key value violates unique constraint \"tasks_pkey\""

/-- Text of `sql.ErrNoRows`, which `QueryRow(...).Scan` returns when no row comes back. -/
def ErrNoRows : Error := "sql: no rows in result set"

namespace PostgresTaskRepository

/-- Create: `INSERT INTO tasks (title, description, status, priority) VALUES ($1,$2,$3,$4)
RETURNING id, created_at, updated_at`, scanned into the task that was passed in. The id comes
from the sequence; both timestamps are the column defaults, taken to be the statement time
`now`. -/
def Create (now : Time) (task : Task) (db : DB) : Except Error Task × DB :=
  let id := db.seq + 1
  if db.rows.any (fun r => r.ID == id) then
    (.error errDuplicateKey, { db with seq := id })
  else
    let row : Task :=
      { ID := id, Title := task.Title, Description := task.Description, Status := task.Status,
        Priority := task.Priority, CreatedAt := now, UpdatedAt := now }
    (.ok { task with ID := row.ID, CreatedAt := row.CreatedAt, UpdatedAt := row.UpdatedAt },
     { rows := db.rows ++ [row], seq := id })

/-- GetAll: `SELECT id, title, description, status, priority, created_at, updated_at FROM tasks`. -/
def GetAll (db : DB) : Except Error (List Task) × DB :=
  (.ok db.rows, db)

/-- GetByID: `SELECT ... FROM tasks WHERE id=$1`; `sql.ErrNoRows` becomes `nil, nil`. -/
def GetByID (id : Int) (db : DB) : Except Error (Option Task) × DB :=
  match db.rows.find? (fun r => r.ID == id) with
  | none => (.ok none, db)
  | some row => (.ok (some row), db)

/-- Update: `UPDATE tasks SET title=$1, status=$2, priority=$3, updated_at=NOW() WHERE id=$4
RETURNING id, title, status, priority, created_at, updated_at`, the returned row scanned into
the task that was passed in. The statement neither writes nor returns `description`. -/
def Update (now : Time) (task : Task) (db : DB) : Except Error Task × DB :=
  let set : Task → Task := fun r =>
    if r.ID == task.ID then
      { r with Title := task.Title, Status := task.Status, Priority := task.Priority,
               UpdatedAt := now }
    else r
  match db.rows.find? (fun r => r.ID == task.ID) with
  | none => (.error ErrNoRows, db)
  | some old =>
    let row := set old
    (.ok { task with ID := row.ID, Title := row.Title, Status := row.Status,
                     Priority := row.Priority, CreatedAt := row.CreatedAt,
                     UpdatedAt := row.UpdatedAt },
     { db with rows := db.rows.map set })

/-- Delete: `DELETE FROM tasks WHERE id = $1`. -/
def Delete (id : Int) (db : DB) : Option Error × DB :=
  (none, { db with rows := db.rows.filter (fun r => r.ID != id) })

end PostgresTaskRepository

/-- PostgresTaskRepository as a `TaskRepositoryInterface` over the table, with the database
clock reading `now` used by the statements executed. -/
def postgresRepo (now : Time) : TaskRepositoryInterface DB where
  Create := PostgresTaskRepository.Create now
  GetAll := PostgresTaskRepository.GetAll
  GetByID := PostgresTaskRepository.GetByID
  Update := PostgresTaskRepository.Update now
  Delete := PostgresTaskRepository.Delete

/-- TaskService wired to the Postgres repository, as in `main.go`. -/
def postgresService (now : Time) : TaskService DB := { Repo := postgresRepo now }

/-- The empty table with a fresh sequence. -/
def emptyDB : DB := { rows := [], seq := 0 }

/-! ## services/task_service_interface.go -/

/-- TaskServiceInterface: what the handlers call, each method threading the hidden state of
the implementation. -/
structure TaskServiceInterface (σ : Type) where
  CreateTask : CreateTaskRequest → σ → Except Error Task × σ
  GetAllTasks : σ → Except Error (List Task) × σ
  GetTaskByID : Int → σ → Except Error Task × σ
  UpdateTask : Int → CreateTaskRequest → σ → Except Error Task × σ
  DeleteTask : Int → σ → Option Error × σ

/-- TaskService as an implementation of `TaskServiceInterface`; `now` is the reading of the
service clock (`time.Now()`). -/
def TaskService.toInterface {σ : Type} (s : TaskService σ) (now : Time) :
    TaskServiceInterface σ where
  CreateTask := s.CreateTask
  GetAllTasks := s.GetAllTasks
  GetTaskByID := s.GetTaskByID
  UpdateTask := s.UpdateTask now
  DeleteTask := s.DeleteTask

/-! ## handlers/task_handler.go -/

/-- JSON values written by the handlers. The members of an object are listed in source order;
`time` stands for the encoding of a `time.Time`. -/
inductive Json where
  | null
  | str (s : String)
  | num (n : Int)
  | time (t : Time)
  | arr (items : List Json)
  | obj (members : List (String × Json))
deriving Repr

/-- Encoding of a `*models.Task` with the `json` tags of the struct. -/
def Task.toJson (t : Task) : Json :=
  .obj [("id", .num t.ID), ("title", .str t.Title), ("description", .str t.Description),
        ("status", .str t.Status), ("priority", .str t.Priority),
        ("created_at", .time t.CreatedAt), ("updated_at", .time t.UpdatedAt)]

/-- What a handler reads from the `fiber.Ctx`: the raw path parameter `c.Params("id")` and
the outcome of `c.BodyParser(&req)` (`none` when the body cannot be parsed). -/
structure Ctx where
  idParam : String
  body : Option CreateTaskRequest
deriving DecidableEq, Repr

/-- What a handler writes: the status code and the JSON body, `none` when the handler sends a
status only (`c.SendStatus`). -/
structure Response where
  status : Nat
  body : Option Json
deriving Repr

def StatusOK : Nat := 200
def StatusCreated : Nat := 201
def StatusNoContent : Nat := 204
def StatusBadRequest : Nat := 400
def StatusNotFound : Nat := 404

/-- The call `c.Status(code).JSON(v)`. -/
def respondJSON (code : Nat) (v : Json) : Response := { status := code, body := some v }

/-- The call `c.SendStatus(code)`. -/
def SendStatus (code : Nat) : Response := { status := code, body := none }

/-- Indexing a Go `map[string]bool`: a missing key gives the zero value `false`. -/
def mapIndex (m : List (String × Bool)) (key : String) : Bool :=
  (m.lookup key).getD false

def allowedPriorities : List (String × Bool) :=
  [("low", true), ("medium", true), ("high", true), ("", true)]

def allowedStatus : List (String × Bool) :=
  [("todo", true), ("in progress", true), ("done", true), ("", true)]

/-- Go's `strconv.Atoi` (standard library): an optional sign followed by one or more decimal
digits, with a value in the 64-bit range of `int`; everything else is an error (`none`). -/
def Atoi (s : String) : Option Int :=
  let digits : List Char :=
    match s.data with
    | '-' :: rest => rest
    | '+' :: rest => rest
    | cs => cs
  if digits.isEmpty || !digits.all Char.isDigit then none
  else
    let n : Int := digits.foldl (fun acc ch => acc * 10 + ((ch.toNat - 48 : Nat) : Int)) 0
    let v : Int := if s.data.head? = some '-' then -n else n
    if -(2 ^ 63) ≤ v ∧ v < 2 ^ 63 then some v else none

/-- Go's `fmt.Sprintf("%d", id)`. -/
def fmtD (id : Int) : String := toString id

/-- TaskHandler holds the service it calls. -/
structure TaskHandler (σ : Type) where
  Service : TaskServiceInterface σ

namespace TaskHandler

variable {σ : Type}

/-- CreateTask handles `POST /tasks`. -/
def CreateTask (h : TaskHandler σ) (c : Ctx) (st : σ) : Response × σ :=
  match c.body with
  | none =>
    (respondJSON StatusBadRequest
      (.obj [("error", .str "validation error"), ("message", .str "invalid request body")]), st)
  | some req =>
    if req.Title = "" ∨ len req.Title > 200 then
      (respondJSON StatusBadRequest
        (.obj [("error", .str "validation error"),
               ("message", .str "Title is required and must be max 200 characters")]), st)
    else if len req.Description > 1000 then
      (respondJSON StatusBadRequest
        (.obj [("error", .str "validation error"),
               ("message", .str "Description must be max 1000 characters")]), st)
    else if !mapIndex allowedPriorities req.Priority then
      (respondJSON StatusBadRequest
        (.obj [("error", .str "validation error"),
               ("message", .str "Priority must be one of: low, medium, high or nothing")]), st)
    else if !mapIndex allowedStatus req.Status then
      (respondJSON StatusBadRequest
        (.obj [("error", .str "validation error"),
               ("message", .str "Status must be one of: todo, in progress, done or nothing")]), st)
    else
      match h.Service.CreateTask req st with
      | (.error err, st1) =>
        (respondJSON StatusBadRequest
          (.obj [("error", .str "validation error"), ("message", .str err)]), st1)
      | (.ok task, st1) => (respondJSON StatusCreated task.toJson, st1)

/-- GetAllTasks handles `GET /tasks`. The slice `respTasks` starts out `nil` and stays so when
there is no task, and a `nil` slice is encoded as `null`. -/
def GetAllTasks (h : TaskHandler σ) (_c : Ctx) (st : σ) : Response × σ :=
  match h.Service.GetAllTasks st with
  | (.error err, st1) =>
    (respondJSON StatusBadRequest
      (.obj [("error", .str "internal error"), ("message", .str err)]), st1)
  | (.ok tasks, st1) =>
    let respTasks : List Json := tasks.map fun t =>
      .obj [("id", .num t.ID), ("title", .str t.Title), ("status", .str t.Status),
            ("priority", .str t.Priority), ("created at", .time t.CreatedAt)]
    (respondJSON StatusOK
      (.obj [("tasks", if respTasks.isEmpty then .null else .arr respTasks),
             ("total", .num respTasks.length)]), st1)

/-- GetTaskByID handles `GET /tasks/:id`. -/
def GetTaskByID (h : TaskHandler σ) (c : Ctx) (st : σ) : Response × σ :=
  match Atoi c.idParam with
  | none =>
    (respondJSON StatusBadRequest
      (.obj [("error", .str "validation error"), ("message", .str "ID must be an integer")]), st)
  | some id =>
    match h.Service.GetTaskByID id st with
    | (.error err, st1) =>
      if err = "not found" then
        (respondJSON StatusNotFound
          (.obj [("error", .str "not found"),
                 ("message", .str ("Task with ID " ++ fmtD id ++ " not found"))]), st1)
      else
        (respondJSON StatusNotFound (.obj [("error", .str err)]), st1)
    | (.ok task, st1) => (respondJSON StatusOK task.toJson, st1)

/-- UpdateTask handles `PUT /tasks/:id`. -/
def UpdateTask (h : TaskHandler σ) (c : Ctx) (st : σ) : Response × σ :=
  match Atoi c.idParam with
  | none =>
    (respondJSON StatusBadRequest
      (.obj [("error", .str "validation error"), ("message", .str "invalid id")]), st)
  | some id =>
    match c.body with
    | none =>
      (respondJSON StatusBadRequest
        (.obj [("error", .str "validation error"), ("message", .str "invalid request body")]), st)
    | some req =>
      if len req.Title > 200 then
        (respondJSON StatusBadRequest
          (.obj [("error", .str "validation error"),
                 ("message", .str "Title is required and must be max 200 characters")]), st)
      else if len req.Description > 1000 then
        (respondJSON StatusBadRequest
          (.obj [("error", .str "validation error"),
                 ("message", .str "Description must be max 1000 characters")]), st)
      else if !mapIndex allowedPriorities req.Priority then
        (respondJSON StatusBadRequest
          (.obj [("error", .str "validation error"),
                 ("message", .str "Priority must be one of: low, medium, high or nothing")]), st)
      else if !mapIndex allowedStatus req.Status then
        (respondJSON StatusBadRequest
          (.obj [("error", .str "validation error"),
                 ("message", .str "Status must be one of: todo, in progress, done or nothing")]),
         st)
      else
        match h.Service.UpdateTask id req st with
        | (.error err, st1) =>
          if err = "not found" then
            (respondJSON StatusNotFound
              (.obj [("error", .str "not found"),
                     ("message", .str ("Task with ID " ++ fmtD id ++ " not found"))]), st1)
          else
            (respondJSON StatusBadRequest
              (.obj [("error", .str "internal error"), ("message", .str err)]), st1)
        | (.ok updatedTask, st1) => (respondJSON StatusOK updatedTask.toJson, st1)

/-- DeleteTask handles `DELETE /tasks/:id`. -/
def DeleteTask (h : TaskHandler σ) (c : Ctx) (st : σ) : Response × σ :=
  let idParam := c.idParam
  match Atoi idParam with
  | none =>
    (respondJSON StatusNotFound
      (.obj [("error", .str "validation error"), ("message", .str "Invalid ID")]), st)
  | some id =>
    match h.Service.DeleteTask id st with
    | (some err, st1) =>
      if err = "not found" then
        (respondJSON StatusNotFound
          (.obj [("error", .str "not found"),
                 ("message", .str ("Task with ID " ++ idParam ++ " not found"))]), st1)
      else
        (respondJSON StatusBadRequest
          (.obj [("error", .str "internal error"), ("message", .str err)]), st1)
    | (none, st1) => (SendStatus StatusNoContent, st1)

end TaskHandler

/-- The handler wired to `TaskService` over the Postgres repository, as in `main.go`; `now`
is the reading of the service clock and `dbNow` that of the database clock. -/
def postgresHandler (now dbNow : Time) : TaskHandler DB :=
  { Service := (postgresService dbNow).toInterface now }

/-! ## Vocabulary of the specification -/

/-- The task `r` carries the content of the task `t`: the four fields a request determines
agree; the id and the two timestamps, which the store assigns, are left free. -/
def Task.sameContent (r t : Task) : Prop :=
  r.Title = t.Title ∧ r.Description = t.Description ∧ r.Status = t.Status ∧
    r.Priority = t.Priority

/-- The string `sub` occurs in the string `s`. -/
def Contains (s sub : String) : Prop := ∃ pre post : String, s = pre ++ sub ++ post

/-- A validation rule: the test whether a request violates it and the message reported. -/
structure Rule where
  violated : CreateTaskRequest → Bool
  message : String

/-- The validation rules of a create request as the specification words them, in the order
title, description, priority, status, with the length of a string measured by `size`. They
are stated independently of the handler, which is compared with them. -/
def createRules (size : String → Nat) : List Rule :=
  [ { violated := fun r => r.Title = "" || 200 < size r.Title,
      message := "Title is required and must be max 200 characters" },
    { violated := fun r => 1000 < size r.Description,
      message := "Description must be max 1000 characters" },
    { violated := fun r => !decide (r.Priority ∈ ["", "low", "medium", "high"]),
      message := "Priority must be one of: low, medium, high or nothing" },
    { violated := fun r => !decide (r.Status ∈ ["", "todo", "in progress", "done"]),
      message := "Status must be one of: todo, in progress, done or nothing" } ]

/-- The validation rules of an update request: those of create, except that the title may be
empty. -/
def updateRules (size : String → Nat) : List Rule :=
  [ { violated := fun r => 200 < size r.Title,
      message := "Title is required and must be max 200 characters" },
    { violated := fun r => 1000 < size r.Description,
      message := "Description must be max 1000 characters" },
    { violated := fun r => !decide (r.Priority ∈ ["", "low", "medium", "high"]),
      message := "Priority must be one of: low, medium, high or nothing" },
    { violated := fun r => !decide (r.Status ∈ ["", "todo", "in progress", "done"]),
      message := "Status must be one of: todo, in progress, done or nothing" } ]

/-- The message of the first rule that the request violates, `none` when it violates none. -/
def firstViolation (rules : List Rule) (req : CreateTaskRequest) : Option String :=
  (rules.find? fun rule => rule.violated req).map fun rule => rule.message

/-- The body of an error response: the two members "error" and "message". -/
def errorBody (code message : String) : Json :=
  .obj [("error", .str code), ("message", .str message)]

/-- A repository whose store cannot be reached: every call fails with the error `err`. -/
def failingRepo (err : Error) : TaskRepositoryInterface Unit where
  Create := fun _ st => (.error err, st)
  GetAll := fun st => (.error err, st)
  GetByID := fun _ st => (.error err, st)
  Update := fun _ st => (.error err, st)
  Delete := fun _ st => (some err, st)

/-- The handler over `TaskService` over the unreachable store. -/
def failingHandler (err : Error) : TaskHandler Unit :=
  { Service := (TaskService.mk (failingRepo err)).toInterface 0 }

/-- A title of 101 characters, each the two-byte letter U+00E4: 101 characters, 202 bytes. -/
def umlautTitle : String := String.mk (List.replicate 101 (Char.ofNat 228))

/-- A table holding the single task of the update scenarios: id 1, title "X". -/
def scenarioDB : DB :=
  { rows := [{ ID := 1, Title := "X", Description := "old", Status := "todo",
               Priority := "medium", CreatedAt := 10, UpdatedAt := 10 }],
    seq := 1 }

/-- The names of the members of a JSON object, in order; no names for any other value. -/
def Json.keys : Json → List String
  | .obj members => members.map Prod.fst
  | _ => []

/-- The member of a JSON object under the name `key`, if there is one. -/
def Json.member (j : Json) (key : String) : Option Json :=
  match j with
  | .obj members => members.lookup key
  | _ => none

/-- The three endpoints that change the store. -/
inductive Endpoint where
  | create
  | update
  | delete
deriving DecidableEq, Repr

/-- One request served by the application of `main.go`: the endpoint, what the handler reads
from the context, and the readings of the service clock and of the database clock while the
request is served. -/
structure Call where
  endpoint : Endpoint
  ctx : Ctx
  now : Time
  dbNow : Time
deriving DecidableEq, Repr

/-- Serving one request: the handler over `TaskService` over the Postgres repository. -/
def serve (call : Call) (db : DB) : Response × DB :=
  match call.endpoint with
  | .create => (postgresHandler call.now call.dbNow).CreateTask call.ctx db
  | .update => (postgresHandler call.now call.dbNow).UpdateTask call.ctx db
  | .delete => (postgresHandler call.now call.dbNow).DeleteTask call.ctx db

/-- The store after serving the requests `calls` one after the other, starting from `db`. -/
def serveAll (calls : List Call) (db : DB) : DB :=
  calls.foldl (fun d call => (serve call d).2) db

/-- The invariant of the stored tasks: a non-empty title, a status and a priority out of the
enumerated values. -/
def StoreInv (db : DB) : Prop :=
  ∀ r ∈ db.rows, r.Title ≠ "" ∧ r.Status ∈ ["todo", "in progress", "done"] ∧
    r.Priority ∈ ["low", "medium", "high"]

/-- The partial update as the specification words it: each of title, description, status and
priority is overwritten only if the request's value is non-empty, `UpdatedAt` is stamped with
`now`, and the id and the creation time are those of the stored task `t`. It is stated
independently of `TaskService.UpdateTask`, which is compared with it. -/
def mergedTask (t : Task) (req : CreateTaskRequest) (now : Time) : Task :=
  { ID := t.ID,
    Title := if req.Title = "" then t.Title else req.Title,
    Description := if req.Description = "" then t.Description else req.Description,
    Status := if req.Status = "" then t.Status else req.Status,
    Priority := if req.Priority = "" then t.Priority else req.Priority,
    CreatedAt := t.CreatedAt,
    UpdatedAt := now }

/-- A session of four requests: create "Buy milk", update task 1 with an empty title and the
status "done", create a second task, delete the second task. -/
def scenarioCalls : List Call :=
  [ { endpoint := .create, ctx := ⟨"", some ⟨"Buy milk", "", "", ""⟩⟩, now := 1, dbNow := 2 },
    { endpoint := .update, ctx := ⟨"1", some ⟨"", "", "done", ""⟩⟩, now := 3, dbNow := 4 },
    { endpoint := .create, ctx := ⟨"", some ⟨"Call Bob", "today", "in progress", "high"⟩⟩,
      now := 5, dbNow := 6 },
    { endpoint := .delete, ctx := ⟨"2", none⟩, now := 7, dbNow := 8 } ]

/-- The shape of an error response: if the status is 400 or 404, the body is a JSON object
with exactly the two members "error" and "message". -/
def ErrorShape (r : Response) : Prop :=
  (r.status = 400 ∨ r.status = 404) → r.body.map Json.keys = some ["error", "message"]

/-! ## Service layer -/

/-- C1. For every create request and every repository whose `Create` succeeds and returns the
task it was given (its content unchanged), `TaskService.CreateTask` returns a task whose
status is "todo" when the request's status is empty and the request's status otherwise,
whose priority is "medium" when the request's priority is empty and the request's priority
otherwise, and whose title and description are those of the request. -/
theorem CreateTask_applies_defaults {σ : Type} (s : TaskService σ) (req : CreateTaskRequest)
    (st : σ)
    (hCreate : ∀ t, ∃ r st1, s.Repo.Create t st = (.ok r, st1) ∧ r.sameContent t) :
    ∃ task st1, s.CreateTask req st = (.ok task, st1) ∧
      task.Status = (if req.Status = "" then "todo" else req.Status) ∧
      task.Priority = (if req.Priority = "" then "medium" else req.Priority) ∧
      task.Title = req.Title ∧ task.Description = req.Description := by
  have key : ∀ t, ∃ task st1, s.Repo.Create t st = (.ok task, st1) ∧ task.Status = t.Status ∧
      task.Priority = t.Priority ∧ task.Title = t.Title ∧ task.Description = t.Description := by
    intro t
    obtain ⟨r, st1, hr, hTitle, hDesc, hStatus, hPrio⟩ := hCreate t
    exact ⟨r, st1, hr, hStatus, hPrio, hTitle, hDesc⟩
  unfold TaskService.CreateTask
  by_cases h1 : req.Status = "" <;> by_cases h2 : req.Priority = "" <;>
    simp only [h1, h2, if_true, if_false] <;> exact key _

/-- Witness of C1: the scenario create `{title: "Buy milk"}` against the empty table. -/
theorem CreateTask_applies_defaults_witness :
    (∀ t, ∃ r st1, (postgresService 7).Repo.Create t emptyDB = (.ok r, st1) ∧ r.sameContent t) ∧
    ∃ task st1, (postgresService 7).CreateTask ⟨"Buy milk", "", "", ""⟩ emptyDB = (.ok task, st1) ∧
      task.Status = "todo" ∧ task.Priority = "medium" ∧ task.Title = "Buy milk" ∧
      task.Description = "" := by
  have hCreate : ∀ t, ∃ r st1,
      (postgresService 7).Repo.Create t emptyDB = (.ok r, st1) ∧ r.sameContent t :=
    fun t => ⟨_, _, rfl, rfl, rfl, rfl, rfl⟩
  exact ⟨hCreate,
    CreateTask_applies_defaults (postgresService 7) ⟨"Buy milk", "", "", ""⟩ emptyDB hCreate⟩

/-- C2. When the repository's `GetByID` returns the stored task `t` and its `Update` succeeds
on a task with the id of `t` and returns the task it was given (its content unchanged),
`TaskService.UpdateTask` returns a task in which each of title, description, status and
priority is the request's value when that is non-empty and the value of `t` when the
request's value is the empty string. -/
theorem UpdateTask_merges_fields {σ : Type} (s : TaskService σ) (now : Time) (id : Int)
    (req : CreateTaskRequest) (st st1 : σ) (t : Task)
    (hGet : s.Repo.GetByID id st = (.ok (some t), st1))
    (hUpdate : ∀ u, u.ID = t.ID → ∃ r st2, s.Repo.Update u st1 = (.ok r, st2) ∧ r.sameContent u) :
    ∃ task st2, s.UpdateTask now id req st = (.ok task, st2) ∧
      task.Title = (if req.Title = "" then t.Title else req.Title) ∧
      task.Description = (if req.Description = "" then t.Description else req.Description) ∧
      task.Status = (if req.Status = "" then t.Status else req.Status) ∧
      task.Priority = (if req.Priority = "" then t.Priority else req.Priority) := by
  have key : ∀ u, u.ID = t.ID → ∃ task st2,
      (match s.Repo.Update u st1 with
        | (.error err, st2) => ((.error err : Except Error Task), st2)
        | (.ok updatedTask, st2) => (.ok updatedTask, st2)) = (.ok task, st2) ∧
      task.Title = u.Title ∧ task.Description = u.Description ∧ task.Status = u.Status ∧
      task.Priority = u.Priority := by
    intro u hu
    obtain ⟨r, st2, hr, hTitle, hDesc, hStatus, hPrio⟩ := hUpdate u hu
    exact ⟨r, st2, by rw [hr], hTitle, hDesc, hStatus, hPrio⟩
  unfold TaskService.UpdateTask
  rw [hGet]
  by_cases h1 : req.Title = "" <;> by_cases h2 : req.Description = "" <;>
    by_cases h3 : req.Status = "" <;> by_cases h4 : req.Priority = "" <;>
    simp only [h1, h2, h3, h4, ne_eq, not_true_eq_false, not_false_eq_true, if_true, if_false] <;>
    exact key _ rfl

/-- Witness of C2: the scenario update of id 1 with `{status: "done"}` where the stored title
is "X", against the Postgres repository. -/
theorem UpdateTask_merges_fields_witness :
    (postgresService 20).Repo.GetByID 1 scenarioDB
      = (.ok (some { ID := 1, Title := "X", Description := "old", Status := "todo",
                     Priority := "medium", CreatedAt := 10, UpdatedAt := 10 }), scenarioDB) ∧
    ∃ task st2, (postgresService 20).UpdateTask 20 1 ⟨"", "", "done", ""⟩ scenarioDB
        = (.ok task, st2) ∧
      task.Title = "X" ∧ task.Description = "old" ∧ task.Status = "done" ∧
      task.Priority = "medium" := by
  have h := UpdateTask_merges_fields (postgresService 20) 20 1 ⟨"", "", "done", ""⟩
    scenarioDB scenarioDB
    { ID := 1, Title := "X", Description := "old", Status := "todo", Priority := "medium",
      CreatedAt := 10, UpdatedAt := 10 } rfl
    (by
      intro u hu
      simp only at hu
      simp [postgresService, postgresRepo, PostgresTaskRepository.Update, scenarioDB, hu,
        Task.sameContent])
  exact ⟨rfl, by simpa using h⟩

/-- C3. For every id for which the repository's `GetByID` reports no row (no task and no
error), `TaskService.GetTaskByID`, `TaskService.UpdateTask` (for every request) and
`TaskService.DeleteTask` each fail with the error "not found"; no task is returned. -/
theorem service_not_found {σ : Type} (s : TaskService σ) (now : Time) (id : Int)
    (req : CreateTaskRequest) (st st1 : σ)
    (hGet : s.Repo.GetByID id st = (.ok none, st1)) :
    s.GetTaskByID id st = (.error "not found", st1) ∧
    s.UpdateTask now id req st = (.error "not found", st1) ∧
    s.DeleteTask id st = (some "not found", st1) := by
  refine ⟨?_, ?_, ?_⟩
  · unfold TaskService.GetTaskByID; rw [hGet]
  · unfold TaskService.UpdateTask; rw [hGet]
  · unfold TaskService.DeleteTask; rw [hGet]

/-- Witness of C3: id 99 in a table that only holds id 1. -/
theorem service_not_found_witness :
    (postgresService 20).Repo.GetByID 99 scenarioDB = (.ok none, scenarioDB) ∧
    (postgresService 20).GetTaskByID 99 scenarioDB = (.error "not found", scenarioDB) ∧
    (postgresService 20).UpdateTask 20 99 ⟨"Neu", "", "in progress", ""⟩ scenarioDB
      = (.error "not found", scenarioDB) ∧
    (postgresService 20).DeleteTask 99 scenarioDB = (some "not found", scenarioDB) :=
  ⟨rfl, service_not_found (postgresService 20) 20 99 ⟨"Neu", "", "in progress", ""⟩
    scenarioDB scenarioDB rfl⟩

/-! ## Service over the Postgres repository -/

/-- C4 (defect). Updating the description of the stored task 1 from "old" to "new" succeeds
and the returned task shows "new", but the `UPDATE` statement does not write the column: the
task fetched right afterwards still has the description "old". -/
theorem UpdateTask_description_not_persisted :
    (postgresService 20).UpdateTask 20 1 ⟨"", "new", "", ""⟩ scenarioDB
      = (.ok { ID := 1, Title := "X", Description := "new", Status := "todo",
               Priority := "medium", CreatedAt := 10, UpdatedAt := 20 },
         { rows := [{ ID := 1, Title := "X", Description := "old", Status := "todo",
                      Priority := "medium", CreatedAt := 10, UpdatedAt := 20 }], seq := 1 }) ∧
    (postgresService 20).GetTaskByID 1
        ((postgresService 20).UpdateTask 20 1 ⟨"", "new", "", ""⟩ scenarioDB).2
      = (.ok { ID := 1, Title := "X", Description := "old", Status := "todo",
               Priority := "medium", CreatedAt := 10, UpdatedAt := 20 },
         { rows := [{ ID := 1, Title := "X", Description := "old", Status := "todo",
                      Priority := "medium", CreatedAt := 10, UpdatedAt := 20 }], seq := 1 }) :=
  ⟨rfl, rfl⟩

/-- A successful insert: the id is the next value of the sequence, it was not taken, and the
new row is appended to the table. -/
theorem Create_ok_inv (now : Time) (t r : Task) (db db1 : DB)
    (h : PostgresTaskRepository.Create now t db = (.ok r, db1)) :
    db.rows.find? (fun x => x.ID == db.seq + 1) = none ∧
    r = { t with ID := db.seq + 1, CreatedAt := now, UpdatedAt := now } ∧
    db1 = { rows := db.rows ++ [{ ID := db.seq + 1, Title := t.Title,
                                  Description := t.Description, Status := t.Status,
                                  Priority := t.Priority, CreatedAt := now, UpdatedAt := now }],
            seq := db.seq + 1 } := by
  unfold PostgresTaskRepository.Create at h
  by_cases hAny : db.rows.any (fun x => x.ID == db.seq + 1) = true
  · simp [hAny] at h
  · simp only [hAny, Bool.false_eq_true, if_false, Prod.mk.injEq, Except.ok.injEq] at h
    refine ⟨?_, h.1.symm, h.2.symm⟩
    rw [List.find?_eq_none]
    intro x hx hp
    exact hAny (List.any_eq_true.mpr ⟨x, hx, hp⟩)

/-- C5. Round trip: if `TaskService.CreateTask` succeeds against the Postgres repository and
returns a task, then `TaskService.GetTaskByID` with the id of that task, called on the store
right afterwards, succeeds and returns a task with the same title, description, status and
priority. -/
theorem create_get_round_trip (dbNow dbNow2 : Time) (req : CreateTaskRequest) (db db1 : DB)
    (task : Task)
    (hCreate : (postgresService dbNow).CreateTask req db = (.ok task, db1)) :
    ∃ got, (postgresService dbNow2).GetTaskByID task.ID db1 = (.ok got, db1) ∧
      got.Title = task.Title ∧ got.Description = task.Description ∧
      got.Status = task.Status ∧ got.Priority = task.Priority := by
  unfold TaskService.CreateTask at hCreate
  obtain ⟨hFresh, hTask, hDb⟩ := Create_ok_inv dbNow _ task db db1 hCreate
  subst hTask hDb
  simp only [TaskService.GetTaskByID, postgresService, postgresRepo,
    PostgresTaskRepository.GetByID, List.find?_append, hFresh]
  simp

/-- Witness of C5: create `{title: "Buy milk"}` against the table of the scenario, which
assigns id 2, then fetch id 2. -/
theorem create_get_round_trip_witness :
    (postgresService 30).CreateTask ⟨"Buy milk", "", "", ""⟩ scenarioDB
      = (.ok { ID := 2, Title := "Buy milk", Description := "", Status := "todo",
               Priority := "medium", CreatedAt := 30, UpdatedAt := 30 },
         ((postgresService 30).CreateTask ⟨"Buy milk", "", "", ""⟩ scenarioDB).2) ∧
    ∃ got, (postgresService 31).GetTaskByID 2
        ((postgresService 30).CreateTask ⟨"Buy milk", "", "", ""⟩ scenarioDB).2
        = (.ok got, ((postgresService 30).CreateTask ⟨"Buy milk", "", "", ""⟩ scenarioDB).2) ∧
      got.Title = "Buy milk" ∧ got.Description = "" ∧ got.Status = "todo" ∧
      got.Priority = "medium" :=
  ⟨rfl, create_get_round_trip 30 31 ⟨"Buy milk", "", "", ""⟩ scenarioDB _
    { ID := 2, Title := "Buy milk", Description := "", Status := "todo",
      Priority := "medium", CreatedAt := 30, UpdatedAt := 30 } rfl⟩

/-! ## Handler layer -/

/-- Looking up `allowedPriorities` is membership in the set of allowed priorities. -/
theorem mapIndex_allowedPriorities (p : String) :
    mapIndex allowedPriorities p = decide (p ∈ ["", "low", "medium", "high"]) := by
  unfold mapIndex allowedPriorities
  by_cases h1 : p = "low"
  · subst h1; rfl
  by_cases h2 : p = "medium"
  · subst h2; rfl
  by_cases h3 : p = "high"
  · subst h3; rfl
  by_cases h4 : p = ""
  · subst h4; rfl
  have e1 := beq_false_of_ne h1
  have e2 := beq_false_of_ne h2
  have e3 := beq_false_of_ne h3
  have e4 := beq_false_of_ne h4
  simp [List.lookup, e1, e2, e3, e4, h1, h2, h3, h4]

/-- Looking up `allowedStatus` is membership in the set of allowed statuses. -/
theorem mapIndex_allowedStatus (p : String) :
    mapIndex allowedStatus p = decide (p ∈ ["", "todo", "in progress", "done"]) := by
  unfold mapIndex allowedStatus
  by_cases h1 : p = "todo"
  · subst h1; rfl
  by_cases h2 : p = "in progress"
  · subst h2; rfl
  by_cases h3 : p = "done"
  · subst h3; rfl
  by_cases h4 : p = ""
  · subst h4; rfl
  have e1 := beq_false_of_ne h1
  have e2 := beq_false_of_ne h2
  have e3 := beq_false_of_ne h3
  have e4 := beq_false_of_ne h4
  simp [List.lookup, e1, e2, e3, e4, h1, h2, h3, h4]

/-- A string has at least as many bytes as characters. -/
theorem length_le_len (s : String) : s.length ≤ len s := by
  have go : ∀ cs : List Char, cs.length ≤ String.utf8ByteSize.go cs := by
    intro cs
    induction cs with
    | nil => simp [String.utf8ByteSize.go]
    | cons c cs ih =>
      have := Char.utf8Size_pos c
      simp only [String.utf8ByteSize.go, List.length_cons]
      omega
  cases s with
  | mk cs => exact go cs

/-- The create handler, seen through the rules: the message of the first violated rule is
reported and the service is not called; with no rule violated the service is called. -/
theorem CreateTask_by_rules {σ : Type} (h : TaskHandler σ) (c : Ctx) (req : CreateTaskRequest)
    (st : σ) (hBody : c.body = some req) :
    h.CreateTask c st =
      match firstViolation (createRules len) req with
      | some msg => (respondJSON 400 (errorBody "validation error" msg), st)
      | none =>
        match h.Service.CreateTask req st with
        | (.error err, st1) => (respondJSON 400 (errorBody "validation error" err), st1)
        | (.ok task, st1) => (respondJSON 201 task.toJson, st1) := by
  unfold TaskHandler.CreateTask
  rw [hBody]
  simp only [mapIndex_allowedPriorities, mapIndex_allowedStatus, firstViolation, createRules,
    errorBody, StatusBadRequest, StatusCreated, List.find?]
  by_cases hT : req.Title = "" ∨ len req.Title > 200
  · have hT2 : (decide (req.Title = "") || decide (200 < len req.Title)) = true := by
      simpa using hT
    simp [hT, hT2]
  · have hT2 : (decide (req.Title = "") || decide (200 < len req.Title)) = false := by
      simpa using hT
    by_cases hD : len req.Description > 1000
    · simp [hT, hT2, hD]
    · by_cases hP : req.Priority ∈ ["", "low", "medium", "high"]
      · by_cases hS : req.Status ∈ ["", "todo", "in progress", "done"]
        · simp [hT, hT2, hD, hP, hS]
        · simp [hT, hT2, hD, hP, hS]
      · simp [hT, hT2, hD, hP]

/-- The update handler, seen through the rules, for a path id that parses. -/
theorem UpdateTask_by_rules {σ : Type} (h : TaskHandler σ) (c : Ctx) (id : Int)
    (req : CreateTaskRequest) (st : σ) (hId : Atoi c.idParam = some id)
    (hBody : c.body = some req) :
    h.UpdateTask c st =
      match firstViolation (updateRules len) req with
      | some msg => (respondJSON 400 (errorBody "validation error" msg), st)
      | none =>
        match h.Service.UpdateTask id req st with
        | (.error err, st1) =>
          if err = "not found" then
            (respondJSON 404
              (errorBody "not found" ("Task with ID " ++ fmtD id ++ " not found")), st1)
          else (respondJSON 400 (errorBody "internal error" err), st1)
        | (.ok task, st1) => (respondJSON 200 task.toJson, st1) := by
  unfold TaskHandler.UpdateTask
  rw [hId, hBody]
  simp only [mapIndex_allowedPriorities, mapIndex_allowedStatus, firstViolation, updateRules,
    errorBody, StatusBadRequest, StatusNotFound, StatusOK, List.find?]
  by_cases hT : len req.Title > 200
  · simp [hT]
  · by_cases hD : len req.Description > 1000
    · simp [hT, hD]
    · by_cases hP : req.Priority ∈ ["", "low", "medium", "high"]
      · by_cases hS : req.Status ∈ ["", "todo", "in progress", "done"]
        · simp [hT, hD, hP, hS]
        · simp [hT, hD, hP, hS]
      · simp [hT, hD, hP]

/-- A create request violates no rule exactly when its title is non-empty and of size at most
200, its description of size at most 1000, and its priority and status are allowed. -/
theorem firstViolation_create_none (size : String → Nat) (req : CreateTaskRequest) :
    firstViolation (createRules size) req = none ↔
      req.Title ≠ "" ∧ size req.Title ≤ 200 ∧ size req.Description ≤ 1000 ∧
      req.Priority ∈ ["", "low", "medium", "high"] ∧
      req.Status ∈ ["", "todo", "in progress", "done"] := by
  simp only [firstViolation, createRules, Option.map_eq_none', List.find?_eq_none,
    List.forall_mem_cons]
  simp
  tauto

/-- What the create handler does for a parsed request that violates a rule. With lengths
measured in bytes (Go's `len`) it answers 400 with the error "validation error" and the
message of the first violated rule in the order title, description, priority, status. With
lengths counted in characters it still answers 400 with the error "validation error", but
the message need not be that of the first violated rule. In both cases the state of the
service is untouched whatever the service is: the service is not called. Every request with
an empty title gets a message containing "Title is required". -/
theorem CreateTask_rejects_invalid {σ : Type} (h : TaskHandler σ) (c : Ctx)
    (req : CreateTaskRequest) (st : σ) (hBody : c.body = some req) :
    (∀ msg, firstViolation (createRules len) req = some msg →
      h.CreateTask c st = (respondJSON 400 (errorBody "validation error" msg), st)) ∧
    (firstViolation (createRules String.length) req ≠ none →
      ∃ msg, h.CreateTask c st = (respondJSON 400 (errorBody "validation error" msg), st)) ∧
    (req.Title = "" →
      ∃ msg, Contains msg "Title is required" ∧
        h.CreateTask c st = (respondJSON 400 (errorBody "validation error" msg), st)) := by
  have hEq := CreateTask_by_rules h c req st hBody
  refine ⟨?_, ?_, ?_⟩
  · intro msg hmsg
    rw [hEq, hmsg]
  · intro hChars
    cases hv : firstViolation (createRules len) req with
    | some msg => exact ⟨msg, by rw [hEq, hv]⟩
    | none =>
      exfalso
      apply hChars
      rw [firstViolation_create_none] at hv ⊢
      obtain ⟨h1, h2, h3, h4, h5⟩ := hv
      exact ⟨h1, le_trans (length_le_len _) h2, le_trans (length_le_len _) h3, h4, h5⟩
  · intro hTitle
    refine ⟨"Title is required and must be max 200 characters",
      ⟨"", " and must be max 200 characters", rfl⟩, ?_⟩
    rw [hEq]
    simp [firstViolation, createRules, hTitle]

/-- An instance of the rejection: an empty title together with a bad priority and a bad
status is answered with the title message, and the table is untouched. -/
theorem CreateTask_rejects_invalid_witness :
    firstViolation (createRules len) ⟨"", "", "urgent", "waiting"⟩
      = some "Title is required and must be max 200 characters" ∧
    (postgresHandler 5 6).CreateTask ⟨"", some ⟨"", "", "urgent", "waiting"⟩⟩ scenarioDB
      = (respondJSON 400 (errorBody "validation error"
          "Title is required and must be max 200 characters"), scenarioDB) :=
  ⟨rfl, (CreateTask_rejects_invalid (postgresHandler 5 6)
    ⟨"", some ⟨"", "", "urgent", "waiting"⟩⟩ ⟨"", "", "urgent", "waiting"⟩ scenarioDB rfl).1
      _ rfl⟩

/-- C6 (defect). A create request with a title of 101 characters, each two bytes long, and the
priority "urgent" violates, with lengths counted in characters, no rule before the priority
rule. The handler measures the title in bytes, finds 202 and answers with the message of the
title rule: the message is not that of the first violated rule. -/
theorem CreateTask_message_not_of_first_violated_rule :
    umlautTitle.length = 101 ∧
    firstViolation (createRules String.length) ⟨umlautTitle, "", "", "urgent"⟩
      = some "Priority must be one of: low, medium, high or nothing" ∧
    (postgresHandler 5 6).CreateTask ⟨"", some ⟨umlautTitle, "", "", "urgent"⟩⟩ emptyDB
      = ({ status := 400,
           body := some (errorBody "validation error"
             "Title is required and must be max 200 characters") }, emptyDB) := by
  refine ⟨by decide, by decide, ?_⟩
  rw [CreateTask_by_rules _ _ ⟨umlautTitle, "", "", "urgent"⟩ _ rfl]
  have hv : firstViolation (createRules len) ⟨umlautTitle, "", "", "urgent"⟩
      = some "Title is required and must be max 200 characters" := by decide
  rw [hv]
  rfl

/-- C7 (defect). A create request whose title has 101 characters, all of them two bytes long,
is within the documented limit of 200 characters, yet the handler measures 202 bytes and
answers 400 with the title message instead of calling the service. -/
theorem CreateTask_rejects_multibyte_title :
    umlautTitle.length = 101 ∧ len umlautTitle = 202 ∧
    firstViolation (createRules String.length) ⟨umlautTitle, "", "", ""⟩ = none ∧
    (postgresHandler 5 6).CreateTask ⟨"", some ⟨umlautTitle, "", "", ""⟩⟩ emptyDB
      = (respondJSON 400 (errorBody "validation error"
          "Title is required and must be max 200 characters"), emptyDB) := by
  refine ⟨by decide, by decide, by decide, ?_⟩
  rw [CreateTask_by_rules _ _ ⟨umlautTitle, "", "", ""⟩ _ rfl]
  have hv : firstViolation (createRules len) ⟨umlautTitle, "", "", ""⟩
      = some "Title is required and must be max 200 characters" := by decide
  rw [hv]

/-- C8. Whenever the request passes parsing and validation and the service call succeeds, the
handlers answer: `CreateTask` 201 with the task returned by the service; `GetAllTasks`,
`GetTaskByID` and `UpdateTask` 200 (the latter two with the task returned by the service);
`DeleteTask` 204 without a body. -/
theorem handlers_success_status {σ : Type} (h : TaskHandler σ) (c : Ctx) (st : σ) :
    (∀ req task st1, c.body = some req → firstViolation (createRules len) req = none →
      h.Service.CreateTask req st = (.ok task, st1) →
      h.CreateTask c st = ({ status := 201, body := some task.toJson }, st1)) ∧
    (∀ tasks st1, h.Service.GetAllTasks st = (.ok tasks, st1) →
      ∃ body, h.GetAllTasks c st = ({ status := 200, body := some body }, st1)) ∧
    (∀ id task st1, Atoi c.idParam = some id →
      h.Service.GetTaskByID id st = (.ok task, st1) →
      h.GetTaskByID c st = ({ status := 200, body := some task.toJson }, st1)) ∧
    (∀ id req task st1, Atoi c.idParam = some id → c.body = some req →
      firstViolation (updateRules len) req = none →
      h.Service.UpdateTask id req st = (.ok task, st1) →
      h.UpdateTask c st = ({ status := 200, body := some task.toJson }, st1)) ∧
    (∀ id st1, Atoi c.idParam = some id → h.Service.DeleteTask id st = (none, st1) →
      h.DeleteTask c st = ({ status := 204, body := none }, st1)) := by
  refine ⟨?_, ?_, ?_, ?_, ?_⟩
  · intro req task st1 hBody hValid hSvc
    rw [CreateTask_by_rules h c req st hBody, hValid]
    simp only [hSvc]
    rfl
  · intro tasks st1 hSvc
    unfold TaskHandler.GetAllTasks
    rw [hSvc]
    exact ⟨_, rfl⟩
  · intro id task st1 hId hSvc
    unfold TaskHandler.GetTaskByID
    rw [hId]
    simp only [hSvc]
    rfl
  · intro id req task st1 hId hBody hValid hSvc
    rw [UpdateTask_by_rules h c id req st hId hBody, hValid]
    simp only [hSvc]
    rfl
  · intro id st1 hId hSvc
    unfold TaskHandler.DeleteTask
    simp only [hId, hSvc]
    rfl

/-- Witness of C8: the five handlers over the Postgres service on the table of the scenario,
with path id "1" and a valid body. -/
theorem handlers_success_status_witness :
    ((postgresHandler 40 41).CreateTask ⟨"1", some ⟨"Buy milk", "", "done", "high"⟩⟩
        scenarioDB).1.status = 201 ∧
    ((postgresHandler 40 41).GetTaskByID ⟨"1", some ⟨"Buy milk", "", "done", "high"⟩⟩
        scenarioDB).1.status = 200 ∧
    ((postgresHandler 40 41).UpdateTask ⟨"1", some ⟨"Buy milk", "", "done", "high"⟩⟩
        scenarioDB).1.status = 200 ∧
    ((postgresHandler 40 41).DeleteTask ⟨"1", some ⟨"Buy milk", "", "done", "high"⟩⟩
        scenarioDB).1.body.isNone = true ∧
    ((postgresHandler 40 41).DeleteTask ⟨"1", some ⟨"Buy milk", "", "done", "high"⟩⟩
        scenarioDB).1.status = 204 := by
  have h := handlers_success_status (postgresHandler 40 41)
    ⟨"1", some ⟨"Buy milk", "", "done", "high"⟩⟩ scenarioDB
  refine ⟨?_, ?_, ?_, ?_, ?_⟩
  · rw [h.1 ⟨"Buy milk", "", "done", "high"⟩ _ _ rfl rfl rfl]
  · rw [h.2.2.1 1 _ _ rfl rfl]
  · rw [h.2.2.2.1 1 ⟨"Buy milk", "", "done", "high"⟩ _ _ rfl rfl rfl rfl]
  · rw [h.2.2.2.2 1 _ rfl rfl]; rfl
  · rw [h.2.2.2.2 1 _ rfl rfl]

/-- C10 (defect). When the service fails with an error other than "not found", here
"connection refused" from a store that cannot be reached, `GetTaskByID` of the handler
answers 404, not 400, and its body has the single member "error" and no "message". -/
theorem GetTaskByID_service_error_not_400 :
    (TaskService.mk (failingRepo "connection refused")).GetTaskByID 1 ()
      = (.error "connection refused", ()) ∧
    (failingHandler "connection refused").GetTaskByID ⟨"1", none⟩ ()
      = ({ status := 404, body := some (.obj [("error", .str "connection refused")]) }, ()) :=
  ⟨rfl, rfl⟩

/-- The other four handlers do answer a service error other than "not found" with 400 and a
body whose message is the text of the error. -/
theorem other_handlers_service_error {σ : Type} (h : TaskHandler σ) (c : Ctx) (st : σ)
    (err : Error) (hErr : err ≠ "not found") :
    (∀ req st1, c.body = some req → firstViolation (createRules len) req = none →
      h.Service.CreateTask req st = (.error err, st1) →
      h.CreateTask c st = (respondJSON 400 (errorBody "validation error" err), st1)) ∧
    (∀ st1, h.Service.GetAllTasks st = (.error err, st1) →
      h.GetAllTasks c st = (respondJSON 400 (errorBody "internal error" err), st1)) ∧
    (∀ id req st1, Atoi c.idParam = some id → c.body = some req →
      firstViolation (updateRules len) req = none →
      h.Service.UpdateTask id req st = (.error err, st1) →
      h.UpdateTask c st = (respondJSON 400 (errorBody "internal error" err), st1)) ∧
    (∀ id st1, Atoi c.idParam = some id → h.Service.DeleteTask id st = (some err, st1) →
      h.DeleteTask c st = (respondJSON 400 (errorBody "internal error" err), st1)) := by
  refine ⟨?_, ?_, ?_, ?_⟩
  · intro req st1 hBody hValid hSvc
    rw [CreateTask_by_rules h c req st hBody, hValid]
    simp only [hSvc]
  · intro st1 hSvc
    unfold TaskHandler.GetAllTasks
    simp only [hSvc]
    rfl
  · intro id req st1 hId hBody hValid hSvc
    rw [UpdateTask_by_rules h c id req st hId hBody, hValid]
    simp only [hSvc, hErr, if_false]
  · intro id st1 hId hSvc
    unfold TaskHandler.DeleteTask
    simp only [hId, hSvc, hErr, if_false]
    rfl

/-- C11 (defect). The response of `GetTaskByID` to a service error other than "not found" has
status 404 and a body with the single member "error": the member "message" is missing. -/
theorem GetTaskByID_error_body_lacks_message :
    ((failingHandler "connection refused").GetTaskByID ⟨"1", none⟩ ()).1.status = 404 ∧
    ((failingHandler "connection refused").GetTaskByID ⟨"1", none⟩ ()).1.body.map Json.keys
      = some ["error"] ∧
    (((failingHandler "connection refused").GetTaskByID ⟨"1", none⟩ ()).1.body.bind
      fun b => b.member "message") = none :=
  ⟨rfl, rfl, rfl⟩

/-- Every other error response has the two members: all responses of `CreateTask`,
`GetAllTasks`, `UpdateTask` and `DeleteTask`, and those of `GetTaskByID` unless the service
fails with an error other than "not found". -/
theorem other_error_bodies_have_two_members {σ : Type} (h : TaskHandler σ) (c : Ctx) (st : σ) :
    ErrorShape (h.CreateTask c st).1 ∧ ErrorShape (h.GetAllTasks c st).1 ∧
    ErrorShape (h.UpdateTask c st).1 ∧ ErrorShape (h.DeleteTask c st).1 ∧
    ((∀ id err st1, h.Service.GetTaskByID id st = (.error err, st1) → err = "not found") →
      ErrorShape (h.GetTaskByID c st).1) := by
  refine ⟨?_, ?_, ?_, ?_, ?_⟩
  · unfold TaskHandler.CreateTask ErrorShape
    repeat' split
    all_goals simp [respondJSON, Json.keys, StatusBadRequest, StatusCreated]
  · unfold TaskHandler.GetAllTasks ErrorShape
    repeat' split
    all_goals simp [respondJSON, Json.keys, StatusBadRequest, StatusOK]
  · unfold TaskHandler.UpdateTask ErrorShape
    repeat' split
    all_goals simp [respondJSON, Json.keys, StatusBadRequest, StatusNotFound, StatusOK]
  · unfold TaskHandler.DeleteTask ErrorShape
    cases hi : Atoi c.idParam with
    | none => simp [hi, respondJSON, Json.keys, StatusNotFound]
    | some id =>
      rcases hs : h.Service.DeleteTask id st with ⟨r, st1⟩
      cases r with
      | none => simp [hi, hs, SendStatus, StatusNoContent]
      | some err =>
        by_cases he : err = "not found" <;>
          simp [hi, hs, he, respondJSON, Json.keys, StatusBadRequest, StatusNotFound]
  · intro hOnly
    unfold TaskHandler.GetTaskByID ErrorShape
    split
    · simp [respondJSON, Json.keys, StatusBadRequest]
    · rename_i id hId
      split
      · rename_i err st1 hSvc
        have := hOnly id err st1 hSvc
        simp [this, respondJSON, Json.keys, StatusNotFound]
      · simp [respondJSON, Json.keys, StatusOK]

/-- C12 (defect). The path id "abc" does not parse; `DeleteTask` answers it with 404, not 400
(the service is not called: the table is untouched). -/
theorem DeleteTask_unparsable_id_is_404 :
    Atoi "abc" = none ∧
    (postgresHandler 40 41).DeleteTask ⟨"abc", none⟩ scenarioDB
      = ({ status := 404, body := some (errorBody "validation error" "Invalid ID") },
         scenarioDB) :=
  ⟨by decide, rfl⟩

/-- For a path id that does not parse, `GetTaskByID` and `UpdateTask` answer 400 with a
validation error and `DeleteTask` answers 404; none of them calls the service, whatever the
service is. -/
theorem unparsable_id_responses {σ : Type} (h : TaskHandler σ) (c : Ctx) (st : σ)
    (hId : Atoi c.idParam = none) :
    h.GetTaskByID c st
      = (respondJSON 400 (errorBody "validation error" "ID must be an integer"), st) ∧
    h.UpdateTask c st = (respondJSON 400 (errorBody "validation error" "invalid id"), st) ∧
    h.DeleteTask c st = (respondJSON 404 (errorBody "validation error" "Invalid ID"), st) := by
  refine ⟨?_, ?_, ?_⟩
  · unfold TaskHandler.GetTaskByID; rw [hId]; rfl
  · unfold TaskHandler.UpdateTask; rw [hId]; rfl
  · unfold TaskHandler.DeleteTask; simp only [hId]; rfl

/-- C13 (defect). Listing the table of the scenario gives one item whose members are named
id, title, status, priority and "created at", with a blank: there is no member "created_at".
The item has no description. -/
theorem GetAllTasks_item_key_created_at_missing :
    ∃ item, (((postgresHandler 40 41).GetAllTasks ⟨"", none⟩ scenarioDB).1.body.bind
        fun b => b.member "tasks") = some (.arr [item]) ∧
      item.keys = ["id", "title", "status", "priority", "created at"] ∧
      item.member "created_at" = none ∧
      item.member "created at" = some (.time 10) ∧
      item.member "description" = none :=
  ⟨_, rfl, rfl, rfl, rfl, rfl⟩

/-- C14 (defect). Listing the empty table gives status 200 and total 0, but the member
"tasks" is `null`, not an array: the slice of items is never allocated. -/
theorem GetAllTasks_empty_list_is_null :
    (postgresService 41).GetAllTasks emptyDB = (.ok [], emptyDB) ∧
    (postgresHandler 40 41).GetAllTasks ⟨"", none⟩ emptyDB
      = ({ status := 200, body := some (.obj [("tasks", .null), ("total", .num 0)]) },
         emptyDB) :=
  ⟨rfl, rfl⟩

/-- For a non-empty list returned by the service, `GetAllTasks` answers 200 with an array of
one item per task, in the order of the list, and a total equal to the number of tasks. -/
theorem GetAllTasks_nonempty_list {σ : Type} (h : TaskHandler σ) (c : Ctx) (st st1 : σ)
    (tasks : List Task) (hSvc : h.Service.GetAllTasks st = (.ok tasks, st1))
    (hNe : tasks ≠ []) :
    ∃ items : List Json, h.GetAllTasks c st
        = ({ status := 200,
             body := some (.obj [("tasks", .arr items), ("total", .num tasks.length)]) }, st1) ∧
      items = tasks.map (fun t =>
        .obj [("id", .num t.ID), ("title", .str t.Title), ("status", .str t.Status),
              ("priority", .str t.Priority), ("created at", .time t.CreatedAt)]) := by
  refine ⟨_, ?_, rfl⟩
  unfold TaskHandler.GetAllTasks
  simp only [hSvc]
  cases tasks with
  | nil => exact absurd rfl hNe
  | cons t ts => simp [respondJSON, StatusOK]

/-! ## Invariants of the store -/

/-- An update request violates no rule exactly when its title is of size at most 200, its
description of size at most 1000, and its priority and status are allowed. -/
theorem firstViolation_update_none (size : String → Nat) (req : CreateTaskRequest) :
    firstViolation (updateRules size) req = none ↔
      size req.Title ≤ 200 ∧ size req.Description ≤ 1000 ∧
      req.Priority ∈ ["", "low", "medium", "high"] ∧
      req.Status ∈ ["", "todo", "in progress", "done"] := by
  simp only [firstViolation, updateRules, Option.map_eq_none', List.find?_eq_none,
    List.forall_mem_cons]
  simp
  tauto

/-- The create handler either leaves the state alone or leaves the state that the service
leaves when called with a request that violates no rule. -/
theorem CreateTask_state {σ : Type} (h : TaskHandler σ) (c : Ctx) (st : σ) :
    (h.CreateTask c st).2 = st ∨
    ∃ req, firstViolation (createRules len) req = none ∧
      (h.CreateTask c st).2 = (h.Service.CreateTask req st).2 := by
  cases hb : c.body with
  | none => left; unfold TaskHandler.CreateTask; rw [hb]
  | some req =>
    rw [CreateTask_by_rules h c req st hb]
    cases hv : firstViolation (createRules len) req with
    | some msg => left; rfl
    | none =>
      right
      refine ⟨req, hv, ?_⟩
      rcases hs : h.Service.CreateTask req st with ⟨r, st1⟩
      cases r <;> rfl

/-- The update handler either leaves the state alone or leaves the state that the service
leaves when called with a request that violates no rule. -/
theorem UpdateTask_state {σ : Type} (h : TaskHandler σ) (c : Ctx) (st : σ) :
    (h.UpdateTask c st).2 = st ∨
    ∃ id req, firstViolation (updateRules len) req = none ∧
      (h.UpdateTask c st).2 = (h.Service.UpdateTask id req st).2 := by
  cases hi : Atoi c.idParam with
  | none => left; unfold TaskHandler.UpdateTask; rw [hi]
  | some id =>
    cases hb : c.body with
    | none => left; unfold TaskHandler.UpdateTask; rw [hi, hb]
    | some req =>
      rw [UpdateTask_by_rules h c id req st hi hb]
      cases hv : firstViolation (updateRules len) req with
      | some msg => left; rfl
      | none =>
        right
        refine ⟨id, req, hv, ?_⟩
        rcases hs : h.Service.UpdateTask id req st with ⟨r, st1⟩
        cases r with
        | ok t => rfl
        | error e => simp only []; split <;> rfl

/-- The delete handler either leaves the state alone or leaves the state that the service
leaves. -/
theorem DeleteTask_state {σ : Type} (h : TaskHandler σ) (c : Ctx) (st : σ) :
    (h.DeleteTask c st).2 = st ∨ ∃ id, (h.DeleteTask c st).2 = (h.Service.DeleteTask id st).2 := by
  cases hi : Atoi c.idParam with
  | none => left; unfold TaskHandler.DeleteTask; simp only [hi]
  | some id =>
    right
    refine ⟨id, ?_⟩
    unfold TaskHandler.DeleteTask
    simp only [hi]
    rcases hs : h.Service.DeleteTask id st with ⟨r, st1⟩
    cases r with
    | none => rfl
    | some e => simp only []; split <;> rfl

/-- An allowed status that is not empty is one of the three enumerated values. -/
theorem status_of_allowed (x : String) (h : x ∈ ["", "todo", "in progress", "done"])
    (hx : x ≠ "") : x ∈ ["todo", "in progress", "done"] := by
  simp only [List.mem_cons, List.mem_singleton, List.not_mem_nil, or_false] at h ⊢
  tauto

/-- An allowed priority that is not empty is one of the three enumerated values. -/
theorem priority_of_allowed (x : String) (h : x ∈ ["", "low", "medium", "high"])
    (hx : x ≠ "") : x ∈ ["low", "medium", "high"] := by
  simp only [List.mem_cons, List.mem_singleton, List.not_mem_nil, or_false] at h ⊢
  tauto

/-- The insert keeps the invariant when the task inserted satisfies it. -/
theorem Create_keeps_inv (dbNow : Time) (t : Task) (db : DB) (hInv : StoreInv db)
    (hTitle : t.Title ≠ "") (hStatus : t.Status ∈ ["todo", "in progress", "done"])
    (hPrio : t.Priority ∈ ["low", "medium", "high"]) :
    StoreInv (PostgresTaskRepository.Create dbNow t db).2 := by
  unfold PostgresTaskRepository.Create
  by_cases hAny : db.rows.any (fun x => x.ID == db.seq + 1) = true
  · simp only [hAny, if_true]
    exact hInv
  · simp only [hAny, Bool.false_eq_true, if_false]
    intro r hr
    rcases List.mem_append.mp hr with hOld | hNew
    · exact hInv r hOld
    · rw [List.mem_singleton.mp hNew]
      exact ⟨hTitle, hStatus, hPrio⟩

/-- The update statement keeps the invariant when the task written satisfies it. -/
theorem Update_keeps_inv (dbNow : Time) (u : Task) (db : DB) (hInv : StoreInv db)
    (hTitle : u.Title ≠ "") (hStatus : u.Status ∈ ["todo", "in progress", "done"])
    (hPrio : u.Priority ∈ ["low", "medium", "high"]) :
    StoreInv (PostgresTaskRepository.Update dbNow u db).2 := by
  unfold PostgresTaskRepository.Update
  cases hf : db.rows.find? (fun r => r.ID == u.ID) with
  | none => exact hInv
  | some old =>
    intro r hr
    simp only [List.mem_map] at hr
    obtain ⟨r0, hr0, hEq⟩ := hr
    by_cases hid : (r0.ID == u.ID) = true
    · simp only [hid, if_true] at hEq
      rw [← hEq]
      exact ⟨hTitle, hStatus, hPrio⟩
    · simp only [hid, Bool.false_eq_true, if_false] at hEq
      rw [← hEq]
      exact hInv r0 hr0

/-- The service's create keeps the invariant for a request that violates no rule. -/
theorem service_create_keeps_inv (dbNow : Time) (req : CreateTaskRequest) (db : DB)
    (hValid : firstViolation (createRules len) req = none) (hInv : StoreInv db) :
    StoreInv ((postgresService dbNow).CreateTask req db).2 := by
  obtain ⟨hT, -, -, hP, hS⟩ := (firstViolation_create_none len req).mp hValid
  unfold TaskService.CreateTask
  by_cases h1 : req.Status = "" <;> by_cases h2 : req.Priority = "" <;>
    simp only [h1, h2, if_true, if_false] <;>
    refine Create_keeps_inv dbNow _ db hInv hT ?_ ?_ <;>
    first
      | exact status_of_allowed _ hS h1
      | exact priority_of_allowed _ hP h2
      | simp

/-- When `GetByID` returns the task `t`, `TaskService.UpdateTask` is the repository's `Update`
applied to the merged task: that is the task handed over, and the outcome of `Update` is
passed on as it is. -/
theorem UpdateTask_eq_Update {σ : Type} (s : TaskService σ) (now : Time) (id : Int)
    (req : CreateTaskRequest) (st st1 : σ) (t : Task)
    (hGet : s.Repo.GetByID id st = (.ok (some t), st1)) :
    s.UpdateTask now id req st = s.Repo.Update (mergedTask t req now) st1 := by
  have pass : ∀ p : Except Error Task × σ,
      (match p with
        | (.error err, st2) => ((.error err : Except Error Task), st2)
        | (.ok updatedTask, st2) => (.ok updatedTask, st2)) = p := by
    intro p
    rcases p with ⟨r, st2⟩
    cases r <;> rfl
  unfold TaskService.UpdateTask
  rw [hGet]
  by_cases h1 : req.Title = "" <;> by_cases h2 : req.Description = "" <;>
    by_cases h3 : req.Status = "" <;> by_cases h4 : req.Priority = "" <;>
    simp only [mergedTask, h1, h2, h3, h4, ne_eq, not_true_eq_false, not_false_eq_true,
      if_true, if_false] <;>
    exact pass _

/-- The service's update keeps the invariant for a request that violates no rule. -/
theorem service_update_keeps_inv (now dbNow : Time) (id : Int) (req : CreateTaskRequest)
    (db : DB) (hValid : firstViolation (updateRules len) req = none) (hInv : StoreInv db) :
    StoreInv ((postgresService dbNow).UpdateTask now id req db).2 := by
  obtain ⟨-, -, hP, hS⟩ := (firstViolation_update_none len req).mp hValid
  cases hf : db.rows.find? (fun r => r.ID == id) with
  | none =>
    have hGet : (postgresService dbNow).Repo.GetByID id db = (.ok none, db) := by
      simp only [postgresService, postgresRepo, PostgresTaskRepository.GetByID, hf]
    unfold TaskService.UpdateTask
    rw [hGet]
    exact hInv
  | some t =>
    have hGet : (postgresService dbNow).Repo.GetByID id db = (.ok (some t), db) := by
      simp only [postgresService, postgresRepo, PostgresTaskRepository.GetByID, hf]
    obtain ⟨tT, tS, tP⟩ := hInv t (List.mem_of_find?_eq_some hf)
    rw [UpdateTask_eq_Update _ now id req db db t hGet]
    refine Update_keeps_inv dbNow _ db hInv ?_ ?_ ?_
    · by_cases h1 : req.Title = ""
      · simpa [mergedTask, h1] using tT
      · simp [mergedTask, h1]
    · by_cases h3 : req.Status = ""
      · simpa [mergedTask, h3] using tS
      · simpa [mergedTask, h3] using status_of_allowed _ hS h3
    · by_cases h4 : req.Priority = ""
      · simpa [mergedTask, h4] using tP
      · simpa [mergedTask, h4] using priority_of_allowed _ hP h4

/-- The service's delete keeps the invariant. -/
theorem service_delete_keeps_inv (dbNow : Time) (id : Int) (db : DB) (hInv : StoreInv db) :
    StoreInv ((postgresService dbNow).DeleteTask id db).2 := by
  unfold TaskService.DeleteTask
  simp only [postgresService, postgresRepo, PostgresTaskRepository.GetByID]
  cases hf : db.rows.find? (fun r => r.ID == id) with
  | none => exact hInv
  | some t =>
    intro r hr
    exact hInv r (List.mem_of_mem_filter hr)

/-- Serving one request keeps the invariant of the store. -/
theorem serve_keeps_inv (call : Call) (db : DB) (hInv : StoreInv db) :
    StoreInv (serve call db).2 := by
  unfold serve
  cases call.endpoint with
  | create =>
    rcases CreateTask_state (postgresHandler call.now call.dbNow) call.ctx db with h | h
    · simp only [h]; exact hInv
    · obtain ⟨req, hValid, hEq⟩ := h
      simp only [hEq]
      exact service_create_keeps_inv call.dbNow req db hValid hInv
  | update =>
    rcases UpdateTask_state (postgresHandler call.now call.dbNow) call.ctx db with h | h
    · simp only [h]; exact hInv
    · obtain ⟨id, req, hValid, hEq⟩ := h
      simp only [hEq]
      exact service_update_keeps_inv call.now call.dbNow id req db hValid hInv
  | delete =>
    rcases DeleteTask_state (postgresHandler call.now call.dbNow) call.ctx db with h | h
    · simp only [h]; exact hInv
    · obtain ⟨id, hEq⟩ := h
      simp only [hEq]
      exact service_delete_keeps_inv call.dbNow id db hInv

/-- Serving any sequence of requests keeps the invariant of the store. -/
theorem serveAll_keeps_inv (calls : List Call) (db : DB) (hInv : StoreInv db) :
    StoreInv (serveAll calls db) := by
  induction calls generalizing db with
  | nil => exact hInv
  | cons call rest ih =>
    simp only [serveAll, List.foldl_cons]
    exact ih _ (serve_keeps_inv call db hInv)

/-- The empty table satisfies the invariant. -/
theorem emptyDB_inv : StoreInv emptyDB := by
  intro r hr
  simp [emptyDB] at hr

/-- C15. Title invariant: in every state of the store reached from the empty table by
requests through `CreateTask`, `UpdateTask` and `DeleteTask` of the handler (over
`TaskService` over the table model), every stored task has a non-empty title. -/
theorem stored_title_never_empty (calls : List Call) (r : Task)
    (hr : r ∈ (serveAll calls emptyDB).rows) : r.Title ≠ "" :=
  (serveAll_keeps_inv calls emptyDB emptyDB_inv r hr).1

/-- Witness of C15: after the session of the scenario, whose update carries an empty title,
the one stored task still has the title "Buy milk". -/
theorem stored_title_never_empty_witness :
    (serveAll scenarioCalls emptyDB).rows
      = [{ ID := 1, Title := "Buy milk", Description := "", Status := "done",
           Priority := "medium", CreatedAt := 2, UpdatedAt := 4 }] ∧
    ("Buy milk" : String) ≠ "" :=
  ⟨rfl, stored_title_never_empty scenarioCalls
    { ID := 1, Title := "Buy milk", Description := "", Status := "done",
      Priority := "medium", CreatedAt := 2, UpdatedAt := 4 } (List.mem_singleton.mpr rfl)⟩

/-- C16. Enum invariant: in every state of the store reached from the empty table by requests
through `CreateTask`, `UpdateTask` and `DeleteTask` of the handler (over `TaskService` over
the table model), every stored task has a status out of "todo", "in progress", "done" and a
priority out of "low", "medium", "high"; neither is the empty string. -/
theorem stored_enums_valid (calls : List Call) (r : Task)
    (hr : r ∈ (serveAll calls emptyDB).rows) :
    r.Status ∈ ["todo", "in progress", "done"] ∧ r.Priority ∈ ["low", "medium", "high"] ∧
    r.Status ≠ "" ∧ r.Priority ≠ "" := by
  obtain ⟨-, hS, hP⟩ := serveAll_keeps_inv calls emptyDB emptyDB_inv r hr
  refine ⟨hS, hP, ?_, ?_⟩
  · intro h; rw [h] at hS; simp at hS
  · intro h; rw [h] at hP; simp at hP

/-- Witness of C16: the first three requests of the scenario leave two tasks, one with the
defaults filled in and then updated, one with the values of its request. -/
theorem stored_enums_valid_witness :
    (serveAll (scenarioCalls.take 3) emptyDB).rows
      = [{ ID := 1, Title := "Buy milk", Description := "", Status := "done",
           Priority := "medium", CreatedAt := 2, UpdatedAt := 4 },
         { ID := 2, Title := "Call Bob", Description := "today", Status := "in progress",
           Priority := "high", CreatedAt := 6, UpdatedAt := 6 }] ∧
    ("in progress" ∈ ["todo", "in progress", "done"] ∧ "high" ∈ ["low", "medium", "high"] ∧
      ("in progress" : String) ≠ "" ∧ ("high" : String) ≠ "") :=
  ⟨rfl, stored_enums_valid (scenarioCalls.take 3)
    { ID := 2, Title := "Call Bob", Description := "today", Status := "in progress",
      Priority := "high", CreatedAt := 6, UpdatedAt := 6 }
    (List.mem_cons_of_mem _ (List.mem_singleton.mpr rfl))⟩

/-! ## Frame and clock of an update -/

/-- The update statement leaves the id and the creation time of every row as they were. -/
theorem Update_keeps_id_and_CreatedAt (dbNow : Time) (u : Task) (db : DB) :
    (PostgresTaskRepository.Update dbNow u db).2.rows.map (fun r => (r.ID, r.CreatedAt))
      = db.rows.map (fun r => (r.ID, r.CreatedAt)) := by
  unfold PostgresTaskRepository.Update
  cases hf : db.rows.find? (fun r => r.ID == u.ID) with
  | none => rfl
  | some old =>
    simp only [List.map_map]
    apply List.map_congr_left
    intro r _
    by_cases hid : r.ID = u.ID
    · simp [hid]
    · simp [hid]

/-- C17. For every task `t` returned by the repository's `GetByID` and every update request
there is one task `u`, with the id and the creation time of `t`, such that for every
repository `TaskService.UpdateTask` is the repository's `Update` applied to `u`: the task
handed to `Update` has the same ID and CreatedAt as `t`. The update statement of the Postgres
repository in turn leaves the id and the creation time of every row unchanged. -/
theorem UpdateTask_keeps_id_and_CreatedAt (t : Task) (req : CreateTaskRequest) (now : Time) :
    (∃ u : Task, u.ID = t.ID ∧ u.CreatedAt = t.CreatedAt ∧
      ∀ (σ : Type) (s : TaskService σ) (id : Int) (st st1 : σ),
        s.Repo.GetByID id st = (.ok (some t), st1) →
        s.UpdateTask now id req st = s.Repo.Update u st1) ∧
    (∀ (dbNow : Time) (u : Task) (db : DB),
      (PostgresTaskRepository.Update dbNow u db).2.rows.map (fun r => (r.ID, r.CreatedAt))
        = db.rows.map (fun r => (r.ID, r.CreatedAt))) :=
  ⟨⟨mergedTask t req now, rfl, rfl,
      fun _ s id st st1 hGet => UpdateTask_eq_Update s now id req st st1 t hGet⟩,
    Update_keeps_id_and_CreatedAt⟩

/-- Witness of C17: the update of task 1 of the scenario against the Postgres repository. -/
theorem UpdateTask_keeps_id_and_CreatedAt_witness :
    (postgresService 20).Repo.GetByID 1 scenarioDB
      = (.ok (some { ID := 1, Title := "X", Description := "old", Status := "todo",
                     Priority := "medium", CreatedAt := 10, UpdatedAt := 10 }), scenarioDB) ∧
    ∃ u : Task, u.ID = 1 ∧ u.CreatedAt = 10 ∧
      (postgresService 20).UpdateTask 20 1 ⟨"Y", "", "done", ""⟩ scenarioDB
        = (postgresService 20).Repo.Update u scenarioDB := by
  obtain ⟨u, hID, hCreated, hCall⟩ := (UpdateTask_keeps_id_and_CreatedAt
    { ID := 1, Title := "X", Description := "old", Status := "todo", Priority := "medium",
      CreatedAt := 10, UpdatedAt := 10 } ⟨"Y", "", "done", ""⟩ 20).1
  exact ⟨rfl, u, hID, hCreated, hCall DB (postgresService 20) 1 scenarioDB scenarioDB rfl⟩

/-- C18, as stated, fails. A task is created while the database clock reads 10, which leaves
the table of the scenario with the stamp 10. It is updated while the service clock reads 11
and the database clock still reads 10. The update succeeds and the task returned carries the
database's reading 10, which is not later than the 10 before. -/
theorem UpdatedAt_not_strictly_later :
    ((postgresService 10).CreateTask ⟨"X", "old", "", ""⟩ emptyDB).2 = scenarioDB ∧
    (postgresService 10).GetTaskByID 1 scenarioDB
      = (.ok { ID := 1, Title := "X", Description := "old", Status := "todo",
               Priority := "medium", CreatedAt := 10, UpdatedAt := 10 }, scenarioDB) ∧
    ∃ r db1, (postgresService 10).UpdateTask 11 1 ⟨"", "", "done", ""⟩ scenarioDB
        = (.ok r, db1) ∧ ¬ ((10 : Time) < r.UpdatedAt) :=
  ⟨rfl, rfl, _, _, rfl, by decide⟩

/-- C18, amended. The task returned by a successful `TaskService.UpdateTask` always carries
the reading of the clock that stamps the update: the service's `now` when the repository
returns the stamp it was given, the database's `NOW()` with the Postgres repository, for
which the update of a stored task always succeeds. The returned `UpdatedAt` is strictly
later than the `UpdatedAt` the task had before exactly when that reading is strictly later
than the stored value. -/
theorem UpdatedAt_is_clock_reading :
    (∀ (σ : Type) (s : TaskService σ) (now : Time) (id : Int) (req : CreateTaskRequest)
        (st st1 : σ) (t : Task),
      s.Repo.GetByID id st = (.ok (some t), st1) →
      (∀ u, u.ID = t.ID → ∃ r st2, s.Repo.Update u st1 = (.ok r, st2) ∧
        r.UpdatedAt = u.UpdatedAt) →
      ∃ r st2, s.UpdateTask now id req st = (.ok r, st2) ∧ r.UpdatedAt = now ∧
        (t.UpdatedAt < r.UpdatedAt ↔ t.UpdatedAt < now)) ∧
    (∀ (now dbNow : Time) (id : Int) (req : CreateTaskRequest) (db : DB) (t : Task),
      (postgresService dbNow).Repo.GetByID id db = (.ok (some t), db) →
      ∃ r db1, (postgresService dbNow).UpdateTask now id req db = (.ok r, db1) ∧
        r.UpdatedAt = dbNow ∧ (t.UpdatedAt < r.UpdatedAt ↔ t.UpdatedAt < dbNow)) := by
  refine ⟨?_, ?_⟩
  · intro σ s now id req st st1 t hGet hUpdate
    obtain ⟨r, st2, hr, hStamp⟩ := hUpdate (mergedTask t req now) rfl
    have hNow : r.UpdatedAt = now := hStamp
    refine ⟨r, st2, ?_, hNow, ?_⟩
    · rw [UpdateTask_eq_Update s now id req st st1 t hGet, hr]
    · rw [hNow]
  · intro now dbNow id req db t hGet
    rw [UpdateTask_eq_Update _ now id req db db t hGet]
    have hFind : db.rows.find? (fun r => r.ID == id) = some t := by
      simp only [postgresService, postgresRepo, PostgresTaskRepository.GetByID] at hGet
      cases hf : db.rows.find? (fun r => r.ID == id) with
      | none => rw [hf] at hGet; simp at hGet
      | some t0 =>
        rw [hf] at hGet
        simp only [Prod.mk.injEq, Except.ok.injEq, Option.some.injEq, and_true] at hGet
        rw [hGet]
    have hId : t.ID = id := by
      have := List.find?_some hFind
      simpa using this
    have hFind2 : db.rows.find? (fun r => r.ID == (mergedTask t req now).ID) = some t := by
      show db.rows.find? (fun r => r.ID == t.ID) = some t
      rw [hId]; exact hFind
    simp only [postgresService, postgresRepo, PostgresTaskRepository.Update, hFind2]
    refine ⟨_, _, rfl, ?_, ?_⟩
    · simp [mergedTask]
    · simp [mergedTask]

/-- Witness of C18, amended: the scenario's task, last updated at 10, updated while the
service clock reads 15 and the database clock reads 20. -/
theorem UpdatedAt_is_clock_reading_witness :
    (postgresService 20).Repo.GetByID 1 scenarioDB
      = (.ok (some { ID := 1, Title := "X", Description := "old", Status := "todo",
                     Priority := "medium", CreatedAt := 10, UpdatedAt := 10 }), scenarioDB) ∧
    ∃ r db1, (postgresService 20).UpdateTask 15 1 ⟨"", "", "done", ""⟩ scenarioDB
        = (.ok r, db1) ∧ r.UpdatedAt = 20 ∧ ((10 : Time) < r.UpdatedAt ↔ (10 : Time) < 20) :=
  ⟨rfl, UpdatedAt_is_clock_reading.2 15 20 1 ⟨"", "", "done", ""⟩ scenarioDB
    { ID := 1, Title := "X", Description := "old", Status := "todo", Priority := "medium",
      CreatedAt := 10, UpdatedAt := 10 } rfl⟩

/-! ## Documented status values and failed lookups -/

/-- C20. Atomicity on failure: if the repository's `GetByID` reports no row or returns an
error, `TaskService.UpdateTask` and `TaskService.DeleteTask` fail and leave the state that
`GetByID` left, whatever the repository's `Update` and `Delete` are: neither is called. When
`GetByID` returns an error, that error is what the service returns. -/
theorem failed_lookup_calls_nothing {σ : Type} (repo : TaskRepositoryInterface σ)
    (upd : Task → σ → Except Error Task × σ) (del : Int → σ → Option Error × σ)
    (now : Time) (id : Int) (req : CreateTaskRequest) (st st1 : σ) :
    (repo.GetByID id st = (.ok none, st1) →
      (TaskService.mk { repo with Update := upd, Delete := del }).UpdateTask now id req st
        = (.error "not found", st1) ∧
      (TaskService.mk { repo with Update := upd, Delete := del }).DeleteTask id st
        = (some "not found", st1)) ∧
    (∀ err, repo.GetByID id st = (.error err, st1) →
      (TaskService.mk { repo with Update := upd, Delete := del }).UpdateTask now id req st
        = (.error err, st1) ∧
      (TaskService.mk { repo with Update := upd, Delete := del }).DeleteTask id st
        = (some err, st1)) := by
  refine ⟨?_, ?_⟩
  · intro hGet
    refine ⟨?_, ?_⟩
    · unfold TaskService.UpdateTask; simp only [hGet]
    · unfold TaskService.DeleteTask; simp only [hGet]
  · intro err hGet
    refine ⟨?_, ?_⟩
    · unfold TaskService.UpdateTask; simp only [hGet]
    · unfold TaskService.DeleteTask; simp only [hGet]

/-- Witness of C20: the absent id 99 against the Postgres table, with `Update` and `Delete`
replaced by operations that would empty the table, and the unreachable store. -/
theorem failed_lookup_calls_nothing_witness :
    ((postgresRepo 20).GetByID 99 scenarioDB = (.ok none, scenarioDB) ∧
      (TaskService.mk { postgresRepo 20 with
          Update := fun t _ => (.ok t, emptyDB),
          Delete := fun _ _ => (none, emptyDB) }).UpdateTask 20 99 ⟨"Neu", "", "", ""⟩ scenarioDB
        = (.error "not found", scenarioDB) ∧
      (TaskService.mk { postgresRepo 20 with
          Update := fun t _ => (.ok t, emptyDB),
          Delete := fun _ _ => (none, emptyDB) }).DeleteTask 99 scenarioDB
        = (some "not found", scenarioDB)) ∧
    ((failingRepo "connection refused").GetByID 1 () = (.error "connection refused", ()) ∧
      (TaskService.mk { failingRepo "connection refused" with
          Update := fun t _ => (.ok t, ()),
          Delete := fun _ _ => (none, ()) }).UpdateTask 20 1 ⟨"Neu", "", "", ""⟩ ()
        = (.error "connection refused", ()) ∧
      (TaskService.mk { failingRepo "connection refused" with
          Update := fun t _ => (.ok t, ()),
          Delete := fun _ _ => (none, ()) }).DeleteTask 1 ()
        = (some "connection refused", ())) :=
  ⟨⟨rfl, (failed_lookup_calls_nothing (postgresRepo 20) (fun t _ => (.ok t, emptyDB))
      (fun _ _ => (none, emptyDB)) 20 99 ⟨"Neu", "", "", ""⟩ scenarioDB scenarioDB).1 rfl⟩,
   ⟨rfl, (failed_lookup_calls_nothing (failingRepo "connection refused")
      (fun t _ => (.ok t, ())) (fun _ _ => (none, ())) 20 1 ⟨"Neu", "", "", ""⟩ () ()).2
      "connection refused" rfl⟩⟩

end TaskApi
